import Mathlib

/-!
# Puzzle2048 game engine: shallow embedding and verification

This file embeds the JavaScript `GameEngine` class of the Puzzle2048
repository (tile movement, merging, score bookkeeping, terminal-state
detection) into Lean and proves properties of the embedded code.

Modelling conventions:
* A grid cell (`null` or a tile object in JS) is an `Option Tile`.
* The grid is a `List (List Cell)`; JS array indexing `grid[r][c]` becomes
  `cellAt`, and the in-place assignment `grid[r][c] = v` becomes `setCell`
  (`List.set`, which drops out-of-range writes; all states exercised below
  stay in range).
* JS `Array(4).fill(null)` followed by sequential writes at indices
  `0, 1, 2, …` produces the written prefix padded with `null` up to
  length 4 (sequential writes past index 3 extend the array); the model
  reproduces exactly that.
* `Math.random()`-driven choices (spawn cell, spawn value) are passed in
  as explicit parameters; the opaque `id` strings built from
  `Date.now()`/`Math.random()` are not modelled.
* A JS `TypeError` thrown by indexing a missing row is modelled by an
  `Option` result (`none` = the operation throws).
-/

/-- A tile object: `{ value, row, col, isNew, justMerged }`. -/
structure Tile where
  value : Nat
  row : Nat
  col : Nat
  isNew : Bool
  justMerged : Bool
deriving Repr, DecidableEq

/-- A grid cell: `null` or a tile. -/
abbrev Cell := Option Tile

/-- The playing grid, row-major. -/
abbrev Grid := List (List Cell)

/-- Read `grid[r][c]`; out-of-range reads give an empty cell. -/
def cellAt (g : Grid) (r c : Nat) : Cell :=
  (g.getD r []).getD c none

/-- Write `grid[r][c] = v` (in-range writes only, as used by the engine). -/
def setCell (g : Grid) (r c : Nat) (v : Cell) : Grid :=
  g.set r ((g.getD r []).set c v)

/-- Result of `compactTiles`, the loop body of `processRow` over the
non-null tiles: the tiles written at cursor positions `0, 1, …`, the
`rowMoved` flag accumulated by the loop, the score, and the merged tiles. -/
structure CompactOut where
  written : List Tile
  anyMoved : Bool
  score : Nat
  merged : List Tile
deriving Repr, DecidableEq

/-- The scan loop of `processRow` (src/unnamed/part_004, lines 312-359):
walk the non-null tiles left to right with write cursor `k`; merge the
current tile with the next one when both have equal value and neither is
flagged `justMerged` (skipping the consumed neighbour), otherwise place
the current tile at the cursor. -/
def compactTiles : List Tile → Nat → CompactOut
  | [], _ => ⟨[], false, 0, []⟩
  | [a], k =>
    let mv : Tile := { a with col := k, isNew := false, justMerged := false }
    ⟨[mv], decide (k ≠ a.col), 0, []⟩
  | a :: b :: rest', k =>
    if a.value = b.value ∧ a.justMerged = false ∧ b.justMerged = false then
      let m : Tile := ⟨a.value * 2, a.row, k, false, true⟩
      let o := compactTiles rest' (k + 1)
      ⟨m :: o.written, true, a.value * 2 + o.score, m :: o.merged⟩
    else
      let mv : Tile := { a with col := k, isNew := false, justMerged := false }
      let o := compactTiles (b :: rest') (k + 1)
      ⟨mv :: o.written, (decide (k ≠ a.col)) || o.anyMoved, o.score, o.merged⟩

/-- Result of `processRow`. -/
structure RowResult where
  newRow : List Cell
  rowMoved : Bool
  rowScore : Nat
  rowMerged : List Tile
deriving Repr, DecidableEq

/-- JS `row[i] === null` (an out-of-range read is `undefined`, which is
*not* `=== null`). -/
def jsIsNullAt (l : List Cell) (i : Nat) : Bool :=
  match l.get? i with
  | some none => true
  | _ => false

/-- JS `row[i] && newRow[i] && row[i].value !== newRow[i].value`. -/
def valuesDifferAt (l l' : List Cell) (i : Nat) : Bool :=
  match l.get? i, l'.get? i with
  | some (some a), some (some b) => a.value != b.value
  | _, _ => false

/-- `processRow` (src/unnamed/part_004, lines 302-373): extract the
non-null tiles, run the compaction scan into `newRow = Array(4)` (the
literal `4` is the source's, it is *not* the grid size), then, when the
scan itself reported no movement, fall back to comparing occupancy and
values position by position over `gridSize` indices. -/
def processRow (n : Nat) (row : List Cell) : RowResult :=
  let tiles := row.filterMap id
  let o := compactTiles tiles 0
  let newRow : List Cell :=
    o.written.map some ++ List.replicate (4 - o.written.length) none
  let fallback := (List.range n).any fun i =>
    (jsIsNullAt row i != jsIsNullAt newRow i) || valuesDifferAt row newRow i
  ⟨newRow, o.anyMoved || fallback, o.score, o.merged⟩

/-- The per-line computation of `moveRight`/`moveDown` (src/unnamed/part_004,
lines 215-239 and 271-295): reverse the line, compact it with the shared
`processRow`, and reverse the resulting line back. -/
def compactRight (n : Nat) (line : List Cell) : RowResult :=
  let r := processRow n line.reverse
  { r with newRow := r.newRow.reverse }

/-- JS value of a cell for summing: `null` contributes nothing. -/
def cellVal : Cell → Nat
  | none => 0
  | some t => t.value

/-- Difficulty configuration entry (`getDifficultyConfig`). -/
structure DifficultyConfig where
  size : Nat
  target : Nat
  name : String
deriving Repr, DecidableEq

/-- `getDifficultyConfig` (src/unnamed/part_004, lines 33-42): unknown
difficulty strings fall back to `easy`. -/
def getDifficultyConfig (difficulty : String) : DifficultyConfig :=
  if difficulty = "easy" then ⟨4, 2048, "Easy"⟩
  else if difficulty = "normal" then ⟨5, 4096, "Normal"⟩
  else if difficulty = "hard" then ⟨6, 8192, "Hard"⟩
  else if difficulty = "expert" then ⟨8, 16384, "Expert"⟩
  else ⟨4, 2048, "Easy"⟩

/-- The mutable state of a `GameEngine` instance (`startTime` and the
opaque tile ids are wall-clock data and are not modelled). -/
structure Board where
  difficulty : String
  gridSize : Nat
  targetTile : Nat
  grid : Grid
  score : Nat
  bestScore : Nat
  moves : Nat
  gameStarted : Bool
  gameOver : Bool
  status : String
  mergeCount : Nat
  maxTile : Nat
  lastMoveValid : Bool
deriving Repr, DecidableEq

/-- `setRow`/`setColumn` both stamp the destination coordinates onto a
tile before storing it (`tiles[i].row = …; tiles[i].col = …`). -/
def fixTile (r c : Nat) (cell : Cell) : Cell :=
  cell.map fun t => { t with row := r, col := c }

/-- Shared shape of `setRow` and `setColumn`: for each index `k` of the
line, stamp coordinates `cellOf k` onto `tiles[k]` and store it at that
grid cell (`tiles[k]` past the end of `tiles` is `undefined`, stored as
an empty cell). -/
def setLine (cellOf : Nat → Nat × Nat) (tiles : List Cell) (ks : List Nat) (g : Grid) : Grid :=
  ks.foldl (fun g k =>
    setCell g (cellOf k).1 (cellOf k).2 (fixTile (cellOf k).1 (cellOf k).2 (tiles.getD k none))) g

/-- `setRow` (src/unnamed/part_004, lines 385-393). -/
def setRow (g : Grid) (rowIndex : Nat) (tiles : List Cell) (n : Nat) : Grid :=
  setLine (fun c => (rowIndex, c)) tiles (List.range n) g

/-- `setColumn` (src/unnamed/part_004, lines 409-417). -/
def setColumn (g : Grid) (colIndex : Nat) (tiles : List Cell) (n : Nat) : Grid :=
  setLine (fun r => (r, colIndex)) tiles (List.range n) g

/-- `getRow` (src/unnamed/part_004, lines 378-380): a copy of row `i`. -/
def getRow (g : Grid) (i : Nat) : List Cell :=
  g.getD i []

/-- `getColumn` (src/unnamed/part_004, lines 398-404). -/
def getColumn (g : Grid) (c n : Nat) : List Cell :=
  (List.range n).map fun r => cellAt g r c

/-- Aggregated output of `moveLeft`/`moveRight`/`moveUp`/`moveDown`. -/
structure MoveOut where
  grid : Grid
  moved : Bool
  scoreIncrease : Nat
  mergeOccurred : Bool
  mergedTiles : List Tile
deriving Repr, DecidableEq

/-- The common loop of the four direction methods (src/unnamed/part_004,
lines 188-295): for each line index, extract the line, run the line
computation `proc`, install the new line only when that line moved, and
accumulate `moved` (OR), `scoreIncrease` (sum), `mergeOccurred` and
`mergedTiles` (concatenation in line order). -/
def foldLines (proc : List Cell → RowResult) (ext : Grid → Nat → List Cell)
    (ins : Grid → Nat → List Cell → Grid) : List Nat → Grid → MoveOut
  | [], g => ⟨g, false, 0, false, []⟩
  | i :: is, g =>
    let r := proc (ext g i)
    let g' := if r.rowMoved then ins g i r.newRow else g
    let o := foldLines proc ext ins is g'
    ⟨o.grid, r.rowMoved || o.moved, r.rowScore + o.scoreIncrease,
      (!r.rowMerged.isEmpty) || o.mergeOccurred, r.rowMerged ++ o.mergedTiles⟩

/-- `moveLeft` (src/unnamed/part_004, lines 188-210). -/
def moveLeft (b : Board) : MoveOut :=
  foldLines (processRow b.gridSize) getRow (fun g i row => setRow g i row b.gridSize)
    (List.range b.gridSize) b.grid

/-- `moveRight` (src/unnamed/part_004, lines 215-239): per row, reverse,
compact with `processRow`, reverse back (`compactRight`), and install. -/
def moveRight (b : Board) : MoveOut :=
  foldLines (compactRight b.gridSize) getRow (fun g i row => setRow g i row b.gridSize)
    (List.range b.gridSize) b.grid

/-- `moveUp` (src/unnamed/part_004, lines 244-266). -/
def moveUp (b : Board) : MoveOut :=
  foldLines (processRow b.gridSize) (fun g i => getColumn g i b.gridSize)
    (fun g i col => setColumn g i col b.gridSize) (List.range b.gridSize) b.grid

/-- `moveDown` (src/unnamed/part_004, lines 271-295). -/
def moveDown (b : Board) : MoveOut :=
  foldLines (compactRight b.gridSize) (fun g i => getColumn g i b.gridSize)
    (fun g i col => setColumn g i col b.gridSize) (List.range b.gridSize) b.grid

/-- `clearPreviousFlags` (src/unnamed/part_004, lines 422-431): reset
`isNew` and `justMerged` on every tile on the grid. -/
def clearPreviousFlags (b : Board) : Board :=
  { b with grid := b.grid.map fun row =>
      row.map (Option.map fun t => { t with isNew := false, justMerged := false }) }

/-- The `switch (direction)` dispatch of `move` (src/unnamed/part_004,
lines 129-144); the `default` case yields no direction method. -/
def dispatchMove (b : Board) (dir : String) : Option MoveOut :=
  if dir = "left" then some (moveLeft b)
  else if dir = "right" then some (moveRight b)
  else if dir = "up" then some (moveUp b)
  else if dir = "down" then some (moveDown b)
  else none

/-- `checkVictory` (src/unnamed/part_004, lines 445-454). -/
def checkVictory (b : Board) : Bool :=
  (List.range b.gridSize).any fun r => (List.range b.gridSize).any fun c =>
    match cellAt b.grid r c with
    | some t => decide (b.targetTile ≤ t.value)
    | none => false

/-- First phase of `checkGameOver`: is any cell `null`? -/
def hasEmptyCell (b : Board) : Bool :=
  (List.range b.gridSize).any fun r => (List.range b.gridSize).any fun c =>
    decide (cellAt b.grid r c = none)

/-- JS `neighbour && current.value === neighbour.value`. -/
def tilesEqualValue : Cell → Cell → Bool
  | some a, some b => a.value == b.value
  | _, _ => false

/-- Second phase of `checkGameOver`: does any cell have a right or down
neighbour of equal value? -/
def hasAdjacentEqualPair (b : Board) : Bool :=
  (List.range b.gridSize).any fun r => (List.range b.gridSize).any fun c =>
    (decide (c < b.gridSize - 1) &&
      tilesEqualValue (cellAt b.grid r c) (cellAt b.grid r (c + 1))) ||
    (decide (r < b.gridSize - 1) &&
      tilesEqualValue (cellAt b.grid r c) (cellAt b.grid (r + 1) c))

/-- `checkGameOver` (src/unnamed/part_004, lines 459-493). -/
def checkGameOver (b : Board) : Bool :=
  if hasEmptyCell b then false
  else if hasAdjacentEqualPair b then false
  else true

/-- The empty-cell scan shared by `addRandomTile` and
`addRandomTileForDemo` (row-major order, as in the source). -/
def emptyCellsOf (g : Grid) (n : Nat) : List (Nat × Nat) :=
  (List.range n).flatMap fun r => (List.range n).filterMap fun c =>
    if cellAt g r c = none then some (r, c) else none

/-- `addRandomTile` (src/unnamed/part_004, lines 71-107). `k` stands for
the `Math.random()` pick of the empty cell (taken modulo the number of
empty cells) and `four` for the 10% chance of spawning a 4. -/
def addRandomTile (b : Board) (k : Nat) (four : Bool) : Board × Option Tile :=
  match emptyCellsOf b.grid b.gridSize with
  | [] => (b, none)
  | cells@(_ :: _) =>
    let rc := cells.getD (k % cells.length) (0, 0)
    let v := if four then 4 else 2
    let t : Tile := ⟨v, rc.1, rc.2, true, false⟩
    ({ b with grid := setCell b.grid rc.1 rc.2 (some t), maxTile := max b.maxTile v }, some t)

/-- `addRandomTileForDemo` (src/unnamed/part_004, lines 584-620):
identical to `addRandomTile` except the spawned tile has `isNew: false`. -/
def addRandomTileForDemo (b : Board) (k : Nat) (four : Bool) : Board × Option Tile :=
  match emptyCellsOf b.grid b.gridSize with
  | [] => (b, none)
  | cells@(_ :: _) =>
    let rc := cells.getD (k % cells.length) (0, 0)
    let v := if four then 4 else 2
    let t : Tile := ⟨v, rc.1, rc.2, false, false⟩
    ({ b with grid := setCell b.grid rc.1 rc.2 (some t), maxTile := max b.maxTile v }, some t)

/-- The result object returned by `move`. -/
structure MoveResult where
  moved : Bool
  scoreIncrease : Nat
  mergeOccurred : Bool
  mergedTiles : List Tile
deriving Repr, DecidableEq

/-- `{ moved: false, scoreIncrease: 0, mergeOccurred: false, mergedTiles: [] }`. -/
def noMove : MoveResult := ⟨false, 0, false, []⟩

/-- Lines 147-159 of `move`: on a successful move, add the score, bump
the move counter, mark the move valid, bump the merge counter when a
merge occurred, and raise `bestScore` to `score` when exceeded. -/
def bumpCounters (b : Board) (o : MoveOut) : Board :=
  let b3 := { b with
    score := b.score + o.scoreIncrease
    moves := b.moves + 1
    lastMoveValid := true
    mergeCount := if o.mergeOccurred then b.mergeCount + 1 else b.mergeCount }
  { b3 with bestScore := max b3.bestScore b3.score }

/-- Lines 161-166 of `move`: spawn a tile (`addRandomTile` in UI mode,
`addRandomTileForDemo` in demo mode). -/
def spawnStep (b : Board) (updateUI : Bool) (k : Nat) (four : Bool) : Board :=
  if updateUI then (addRandomTile b k four).1 else (addRandomTileForDemo b k four).1

/-- Lines 168-177 of `move`: re-evaluate victory and game-over. -/
def statusStep (b : Board) : Board :=
  let b6 := if checkVictory b then { b with status := "won" } else b
  if checkGameOver b6 then { b6 with gameOver := true, status := "lost" } else b6

/-- `move` (src/unnamed/part_004, lines 115-183). The `updateMaxTile`
calls made inside `processRow` for each merged tile are accumulated here
as a `max`-fold over the returned `mergedTiles` (same total effect).
`localStorage` persistence of `bestScore` is a side effect outside the
model; the field update itself (`score > bestScore` check) is kept. -/
def move (b : Board) (dir : String) (updateUI : Bool) (k : Nat) (four : Bool) :
    Board × MoveResult :=
  if b.gameOver then (b, noMove)
  else
    let b1 := clearPreviousFlags b
    match dispatchMove b1 dir with
    | none => (b1, noMove)
    | some o =>
      let res : MoveResult := ⟨o.moved, o.scoreIncrease, o.mergeOccurred, o.mergedTiles⟩
      let b2 := { b1 with
        grid := o.grid
        maxTile := o.mergedTiles.foldl (fun m (t : Tile) => max m t.value) b1.maxTile }
      if o.moved then
        (statusStep (spawnStep (bumpCounters b2 o) updateUI k four), res)
      else ({ b2 with lastMoveValid := false }, res)

/-- `clearGrid` (src/unnamed/part_004, lines 59-65): write `null` into
every cell with row and column below `gridSize`. Indexing a missing row
(`this.grid[row]` is `undefined`) throws, modelled as `none`. -/
def clearGrid (g : Grid) (n : Nat) : Option Grid :=
  if n ≤ g.length then
    some ((List.range n).foldl (fun g r =>
      (List.range n).foldl (fun g c => setCell g r c none) g) g)
  else none

/-- `initializeGame` (src/unnamed/part_004, lines 47-54): clear the grid,
spawn two random tiles, mark the game started. -/
def initializeGame (b : Board) (k1 : Nat) (f1 : Bool) (k2 : Nat) (f2 : Bool) : Option Board :=
  match clearGrid b.grid b.gridSize with
  | none => none
  | some g =>
    let bA := (addRandomTile { b with grid := g } k1 f1).1
    let bB := (addRandomTile bA k2 f2).1
    some { bB with gameStarted := true, status := "playing" }

/-- The grid literal of the constructor and of `resetGame` for side `m`:
`Array(m).fill().map(() => Array(m).fill(null))`. -/
def freshGrid (m : Nat) : Grid :=
  List.replicate m (List.replicate m none)

/-- `resetGame` (src/unnamed/part_004, lines 498-511): reset all counters
and rebuild the grid as a hardcoded `4 × 4` array (the literal `4` is the
source's, regardless of `gridSize`), then run `initializeGame`. -/
def resetGame (b : Board) (k1 : Nat) (f1 : Bool) (k2 : Nat) (f2 : Bool) : Option Board :=
  initializeGame { b with
    grid := freshGrid 4
    score := 0
    moves := 0
    gameStarted := false
    gameOver := false
    status := "playing"
    mergeCount := 0
    maxTile := 0
    lastMoveValid := false } k1 f1 k2 f2

/-- The `GameEngine` constructor (src/unnamed/part_004, lines 9-28):
pick the difficulty configuration, allocate a `gridSize × gridSize` grid
and initialize. `bestScore`, read from `localStorage`, is a parameter. -/
def newBoard (difficulty : String) (bestScore : Nat) (k1 : Nat) (f1 : Bool)
    (k2 : Nat) (f2 : Bool) : Option Board :=
  let cfg := getDifficultyConfig difficulty
  initializeGame
    { difficulty := difficulty
      gridSize := cfg.size
      targetTile := cfg.target
      grid := freshGrid cfg.size
      score := 0
      bestScore := bestScore
      moves := 0
      gameStarted := false
      gameOver := false
      status := "playing"
      mergeCount := 0
      maxTile := 0
      lastMoveValid := false } k1 f1 k2 f2



/-- A well-formed `gridSize`-sided grid: `n` rows, each of length `n`. -/
def Dims (g : Grid) (n : Nat) : Prop :=
  g.length = n ∧ ∀ i, i < n → (g.getD i []).length = n

/-- The cell at `(r, c)` is either empty or holds a tile whose stored
coordinates are exactly `(r, c)`. -/
def tileAtOk (r c : Nat) : Cell → Prop
  | none => True
  | some t => t.row = r ∧ t.col = c

/-- Position coherence: every tile on the grid records the coordinates of
the cell that holds it. -/
def PosInv (g : Grid) : Prop :=
  ∀ r c, tileAtOk r c (cellAt g r c)

/-- Sum of the tile values of the `n × n` portion of the grid. -/
def gridSum (g : Grid) (n : Nat) : Nat :=
  ∑ r ∈ Finset.range n, ∑ c ∈ Finset.range n, cellVal (cellAt g r c)

/-- The loss condition as the specification words it: the grid has zero
empty cells, and no pair of horizontally- or vertically-adjacent cells
holds tiles of equal value (raw values only). -/
def SpecLost (b : Board) : Prop :=
  (∀ r, r < b.gridSize → ∀ c, c < b.gridSize → cellAt b.grid r c ≠ none) ∧
  ¬ ∃ r c t t', r < b.gridSize ∧ c < b.gridSize ∧
      ((c + 1 < b.gridSize ∧ cellAt b.grid r c = some t ∧
          cellAt b.grid r (c + 1) = some t' ∧ t.value = t'.value) ∨
       (r + 1 < b.gridSize ∧ cellAt b.grid r c = some t ∧
          cellAt b.grid (r + 1) c = some t' ∧ t.value = t'.value))

/-! ### Concrete boards used as witnesses and counterexamples -/

/-- An easy-difficulty board with an empty 4×4 grid. -/
def bEmptyEasy : Board :=
  ⟨"easy", 4, 2048, freshGrid 4, 0, 0, 0, true, false, "playing", 0, 0, false⟩

/-- An easy board holding a single freshly spawned tile (`isNew = true`)
at the top-left corner. -/
def bOneNewTile : Board :=
  { bEmptyEasy with grid := setCell (freshGrid 4) 0 0 (some ⟨2, 0, 0, true, false⟩) }

/-- A 4×4 grid whose top row starts `2, 2`. -/
def gridTwoTwos : Grid :=
  setCell (setCell (freshGrid 4) 0 0 (some ⟨2, 0, 0, false, false⟩)) 0 1
    (some ⟨2, 0, 1, false, false⟩)

/-- An easy board whose top row starts `2, 2`. -/
def bTwoTwos : Board :=
  { bEmptyEasy with grid := gridTwoTwos }

/-- An easy board already in the lost state. -/
def bLost : Board :=
  { bOneNewTile with gameOver := true, status := "lost" }


/-! ### List helpers for `set`/`getD` -/

theorem getD_set_self {α} (l : List α) (i : Nat) (x d : α) (h : i < l.length) :
    (l.set i x).getD i d = x := by
  show ((l.set i x).get? i).getD d = x
  rw [List.get?_eq_getElem?, List.getElem?_set_eq_of_lt x h]
  rfl

theorem getD_set_ne {α} (l : List α) (i j : Nat) (x d : α) (h : i ≠ j) :
    (l.set i x).getD j d = l.getD j d := by
  show ((l.set i x).get? j).getD d = (l.get? j).getD d
  rw [List.get?_eq_getElem?, List.get?_eq_getElem?, List.getElem?_set_ne h]

theorem getD_of_length_le {α} (l : List α) (i : Nat) (d : α) (h : l.length ≤ i) :
    l.getD i d = d := by
  show (l.get? i).getD d = d
  rw [List.get?_eq_none.2 h]
  rfl

/-! ### `cellAt` / `setCell` interaction -/

theorem cellAt_setCell_ne (g : Grid) (r c : Nat) (v : Cell) (r' c' : Nat)
    (h : (r, c) ≠ (r', c')) : cellAt (setCell g r c v) r' c' = cellAt g r' c' := by
  unfold cellAt setCell
  rcases eq_or_ne r r' with hr | hr
  · subst hr
    have hc : c ≠ c' := fun hc => h (by rw [hc])
    rcases Nat.lt_or_ge r g.length with hlen | hlen
    · rw [getD_set_self _ _ _ _ hlen, getD_set_ne _ _ _ _ _ hc]
    · rw [List.set_eq_of_length_le hlen]
  · rw [getD_set_ne _ _ _ _ _ hr]

theorem cellAt_setCell_self (g : Grid) (r c : Nat) (v : Cell)
    (hr : r < g.length) (hc : c < (g.getD r []).length) :
    cellAt (setCell g r c v) r c = v := by
  unfold cellAt setCell
  rw [getD_set_self _ _ _ _ hr, getD_set_self _ _ _ _ hc]

theorem length_setCell (g : Grid) (r c : Nat) (v : Cell) :
    (setCell g r c v).length = g.length := by
  unfold setCell
  exact List.length_set ..

theorem dims_setCell {g : Grid} {n : Nat} (hd : Dims g n) (r c : Nat) (v : Cell) :
    Dims (setCell g r c v) n := by
  obtain ⟨hlen, hrow⟩ := hd
  refine ⟨by rw [length_setCell, hlen], fun i hi => ?_⟩
  unfold setCell
  rcases eq_or_ne r i with hr | hr
  · subst hr
    rcases Nat.lt_or_ge r g.length with h2 | h2
    · rw [getD_set_self _ _ _ _ h2, List.length_set]
      exact hrow r hi
    · rw [List.set_eq_of_length_le h2]
      exact hrow r hi
  · rw [getD_set_ne _ _ _ _ _ hr]
    exact hrow i hi

theorem posInv_setCell {g : Grid} (hp : PosInv g) (r c : Nat) {v : Cell}
    (hv : tileAtOk r c v) : PosInv (setCell g r c v) := by
  intro r' c'
  rcases Decidable.em ((r, c) = (r', c')) with he | he
  · obtain ⟨hr, hc⟩ := Prod.mk.injEq .. ▸ he
    subst hr; subst hc
    unfold setCell cellAt
    rcases Nat.lt_or_ge r g.length with h2 | h2
    · rw [getD_set_self _ _ _ _ h2]
      rcases Nat.lt_or_ge c (g.getD r []).length with h3 | h3
      · rw [getD_set_self _ _ _ _ h3]; exact hv
      · rw [List.set_eq_of_length_le h3]; exact hp r c
    · rw [List.set_eq_of_length_le h2]; exact hp r c
  · rw [cellAt_setCell_ne _ _ _ _ _ _ he]
    exact hp r' c'

/-! ### `setLine` and `foldLines` basics -/

theorem setLine_nil (cellOf : Nat → Nat × Nat) (tiles : List Cell) (g : Grid) :
    setLine cellOf tiles [] g = g := rfl

theorem setLine_cons (cellOf : Nat → Nat × Nat) (tiles : List Cell) (k : Nat)
    (ks : List Nat) (g : Grid) :
    setLine cellOf tiles (k :: ks) g =
      setLine cellOf tiles ks
        (setCell g (cellOf k).1 (cellOf k).2
          (fixTile (cellOf k).1 (cellOf k).2 (tiles.getD k none))) := rfl

theorem tileAtOk_fixTile (r c : Nat) (cell : Cell) : tileAtOk r c (fixTile r c cell) := by
  cases cell <;> simp [fixTile, tileAtOk]

theorem posInv_setLine (cellOf : Nat → Nat × Nat) (tiles : List Cell) :
    ∀ (ks : List Nat) (g : Grid), PosInv g → PosInv (setLine cellOf tiles ks g) := by
  intro ks
  induction ks with
  | nil => intro g hp; exact hp
  | cons k ks ih =>
    intro g hp
    rw [setLine_cons]
    exact ih _ (posInv_setCell hp _ _ (tileAtOk_fixTile ..))

theorem dims_setLine {n : Nat} (cellOf : Nat → Nat × Nat) (tiles : List Cell) :
    ∀ (ks : List Nat) {g : Grid}, Dims g n → Dims (setLine cellOf tiles ks g) n := by
  intro ks
  induction ks with
  | nil => intro g hd; exact hd
  | cons k ks ih =>
    intro g hd
    rw [setLine_cons]
    exact ih (dims_setCell hd ..)

theorem foldLines_nil (proc : List Cell → RowResult) (ext : Grid → Nat → List Cell)
    (ins : Grid → Nat → List Cell → Grid) (g : Grid) :
    foldLines proc ext ins [] g = ⟨g, false, 0, false, []⟩ := rfl

theorem foldLines_cons (proc : List Cell → RowResult) (ext : Grid → Nat → List Cell)
    (ins : Grid → Nat → List Cell → Grid) (i : Nat) (is : List Nat) (g : Grid) :
    foldLines proc ext ins (i :: is) g =
      (let r := proc (ext g i)
       let g' := if r.rowMoved then ins g i r.newRow else g
       let o := foldLines proc ext ins is g'
       ⟨o.grid, r.rowMoved || o.moved, r.rowScore + o.scoreIncrease,
        (!r.rowMerged.isEmpty) || o.mergeOccurred, r.rowMerged ++ o.mergedTiles⟩) := rfl

/-- When the whole pass reports `moved = false`, no line was installed:
the grid coming out of the direction loop is the grid that went in. -/
theorem foldLines_grid_of_not_moved {proc : List Cell → RowResult}
    {ext : Grid → Nat → List Cell} {ins : Grid → Nat → List Cell → Grid} :
    ∀ (is : List Nat) (g : Grid), (foldLines proc ext ins is g).moved = false →
      (foldLines proc ext ins is g).grid = g := by
  intro is
  induction is with
  | nil => intro g _; rfl
  | cons i is ih =>
    intro g h
    rw [foldLines_cons] at h ⊢
    simp only [Bool.or_eq_false_iff] at h
    obtain ⟨h1, h2⟩ := h
    simp only [h1, if_false] at h2 ⊢
    exact ih g h2

theorem posInv_foldLines {proc : List Cell → RowResult} {ext : Grid → Nat → List Cell}
    {ins : Grid → Nat → List Cell → Grid}
    (hins : ∀ g i row, PosInv g → PosInv (ins g i row)) :
    ∀ (is : List Nat) (g : Grid), PosInv g → PosInv (foldLines proc ext ins is g).grid := by
  intro is
  induction is with
  | nil => intro g hp; exact hp
  | cons i is ih =>
    intro g hp
    rw [foldLines_cons]
    rcases hm : (proc (ext g i)).rowMoved with _ | _
    · simp only [hm, if_false]
      exact ih g hp
    · simp only [hm, if_true]
      exact ih _ (hins _ _ _ hp)

theorem dims_foldLines {n : Nat} {proc : List Cell → RowResult} {ext : Grid → Nat → List Cell}
    {ins : Grid → Nat → List Cell → Grid}
    (hins : ∀ g i row, Dims g n → Dims (ins g i row) n) :
    ∀ (is : List Nat) (g : Grid), Dims g n → Dims (foldLines proc ext ins is g).grid n := by
  intro is
  induction is with
  | nil => intro g hd; exact hd
  | cons i is ih =>
    intro g hd
    rw [foldLines_cons]
    rcases hm : (proc (ext g i)).rowMoved with _ | _
    · simp only [hm, if_false]
      exact ih g hd
    · simp only [hm, if_true]
      exact ih _ (hins _ _ _ hd)

/-! ### Properties of the compaction scan -/

/-- A scan that reports no movement gained no score and merged nothing. -/
theorem compact_not_moved : ∀ (ts : List Tile) (k : Nat),
    (compactTiles ts k).anyMoved = false →
    (compactTiles ts k).score = 0 ∧ (compactTiles ts k).merged = []
  | [], _, _ => ⟨rfl, rfl⟩
  | [_], _, _ => ⟨rfl, rfl⟩
  | a :: b :: rest', k, h => by
    by_cases hc : a.value = b.value ∧ a.justMerged = false ∧ b.justMerged = false
    · rw [compactTiles, if_pos hc] at h
      exact absurd h (by simp)
    · rw [compactTiles, if_neg hc] at h ⊢
      dsimp only at h ⊢
      simp only [Bool.or_eq_false_iff] at h
      exact compact_not_moved (b :: rest') (k + 1) h.2

/-- The scan preserves the total tile value: a merge writes `2v` for two
`v`-tiles, a plain move copies the tile. -/
theorem compact_values_sum : ∀ (ts : List Tile) (k : Nat),
    ((compactTiles ts k).written.map Tile.value).sum = (ts.map Tile.value).sum
  | [], _ => rfl
  | [a], k => by simp [compactTiles]
  | a :: b :: rest', k => by
    by_cases hc : a.value = b.value ∧ a.justMerged = false ∧ b.justMerged = false
    · rw [compactTiles, if_pos hc]
      dsimp only
      have ih := compact_values_sum rest' (k + 1)
      simp only [List.map_cons, List.sum_cons]
      rw [ih]
      have hv : a.value = b.value := hc.1
      omega
    · rw [compactTiles, if_neg hc]
      dsimp only
      have ih := compact_values_sum (b :: rest') (k + 1)
      simp only [List.map_cons, List.sum_cons] at ih ⊢
      omega

/-- The score of a scan is exactly the total value of the merged tiles it
produced. -/
theorem compact_score_eq_merged : ∀ (ts : List Tile) (k : Nat),
    (compactTiles ts k).score = ((compactTiles ts k).merged.map Tile.value).sum
  | [], _ => rfl
  | [_], _ => rfl
  | a :: b :: rest', k => by
    by_cases hc : a.value = b.value ∧ a.justMerged = false ∧ b.justMerged = false
    · rw [compactTiles, if_pos hc]
      dsimp only
      have ih := compact_score_eq_merged rest' (k + 1)
      simp only [List.map_cons, List.sum_cons]
      omega
    · rw [compactTiles, if_neg hc]
      dsimp only
      exact compact_score_eq_merged (b :: rest') (k + 1)

/-- The scan writes at most one tile per input tile. -/
theorem compact_written_length_le : ∀ (ts : List Tile) (k : Nat),
    (compactTiles ts k).written.length ≤ ts.length
  | [], _ => Nat.le_refl _
  | [_], _ => Nat.le_refl _
  | a :: b :: rest', k => by
    by_cases hc : a.value = b.value ∧ a.justMerged = false ∧ b.justMerged = false
    · rw [compactTiles, if_pos hc]
      dsimp only
      have ih := compact_written_length_le rest' (k + 1)
      simp only [List.length_cons]
      omega
    · rw [compactTiles, if_neg hc]
      dsimp only
      have ih := compact_written_length_le (b :: rest') (k + 1)
      simp only [List.length_cons] at ih ⊢
      omega

/-- Each written tile consumes at most two input tiles: a merge combines
exactly one adjacent pair, never more. -/
theorem compact_written_length_ge : ∀ (ts : List Tile) (k : Nat),
    ts.length ≤ 2 * (compactTiles ts k).written.length
  | [], _ => Nat.le_refl _
  | [_], _ => by simp [compactTiles]
  | a :: b :: rest', k => by
    by_cases hc : a.value = b.value ∧ a.justMerged = false ∧ b.justMerged = false
    · rw [compactTiles, if_pos hc]
      dsimp only
      have ih := compact_written_length_ge rest' (k + 1)
      simp only [List.length_cons]
      omega
    · rw [compactTiles, if_neg hc]
      dsimp only
      have ih := compact_written_length_ge (b :: rest') (k + 1)
      simp only [List.length_cons] at ih ⊢
      omega

/-! ### Properties of `processRow` and `compactRight` -/

/-- A line pass that reports `rowMoved = false` gained no score and
merged nothing. -/
theorem processRow_not_moved (n : Nat) (row : List Cell)
    (h : (processRow n row).rowMoved = false) :
    (processRow n row).rowScore = 0 ∧ (processRow n row).rowMerged = [] := by
  unfold processRow at h ⊢
  dsimp only at h ⊢
  simp only [Bool.or_eq_false_iff] at h
  exact compact_not_moved _ 0 h.1

theorem compactRight_not_moved (n : Nat) (line : List Cell)
    (h : (compactRight n line).rowMoved = false) :
    (compactRight n line).rowScore = 0 ∧ (compactRight n line).rowMerged = [] :=
  processRow_not_moved n line.reverse h

/-- Dropping the `null`s does not change the summed value of a line. -/
theorem filterMap_values_sum : ∀ (row : List Cell),
    ((row.filterMap id).map Tile.value).sum = (row.map cellVal).sum
  | [] => rfl
  | none :: xs => by
    simpa [cellVal] using filterMap_values_sum xs
  | some t :: xs => by
    simpa [cellVal] using filterMap_values_sum xs

/-- The compacted line has the same total value as the input line. -/
theorem processRow_newRow_sum (n : Nat) (row : List Cell) :
    ((processRow n row).newRow.map cellVal).sum = (row.map cellVal).sum := by
  unfold processRow
  dsimp only
  rw [List.map_append, List.sum_append, List.map_map, List.map_replicate]
  have h1 : (cellVal ∘ some) = Tile.value := rfl
  rw [h1, compact_values_sum, filterMap_values_sum]
  simp [cellVal]

theorem compactRight_newRow_sum (n : Nat) (line : List Cell) :
    ((compactRight n line).newRow.map cellVal).sum = (line.map cellVal).sum := by
  unfold compactRight
  dsimp only
  rw [List.map_reverse, List.sum_reverse, processRow_newRow_sum]
  rw [List.map_reverse, List.sum_reverse]

/-- The compacted line has length `max 4 (number of written tiles)`. -/
theorem processRow_newRow_length (n : Nat) (row : List Cell) :
    (processRow n row).newRow.length =
      max 4 (compactTiles (row.filterMap id) 0).written.length := by
  unfold processRow
  dsimp only
  rw [List.length_append, List.length_map, List.length_replicate]
  omega

/-- On lines at least as long as the hardcoded `4`, the compacted line is
no longer than the input line. -/
theorem processRow_newRow_length_le (n : Nat) (row : List Cell)
    (h4 : 4 ≤ n) (hlen : row.length ≤ n) :
    (processRow n row).newRow.length ≤ n := by
  rw [processRow_newRow_length]
  have h1 := compact_written_length_le (row.filterMap id) 0
  have h2 := List.length_filterMap_le id row
  omega

theorem compactRight_newRow_length_le (n : Nat) (line : List Cell)
    (h4 : 4 ≤ n) (hlen : line.length ≤ n) :
    (compactRight n line).newRow.length ≤ n := by
  unfold compactRight
  dsimp only
  rw [List.length_reverse]
  exact processRow_newRow_length_le n line.reverse h4 (by simpa using hlen)

/-- The line score equals the summed value of the merged tiles reported. -/
theorem processRow_score_eq_merged (n : Nat) (row : List Cell) :
    (processRow n row).rowScore = ((processRow n row).rowMerged.map Tile.value).sum :=
  compact_score_eq_merged _ 0

theorem compactRight_score_eq_merged (n : Nat) (line : List Cell) :
    (compactRight n line).rowScore = ((compactRight n line).rowMerged.map Tile.value).sum :=
  compact_score_eq_merged _ 0

/-! ### Summation helpers -/

theorem cellVal_fixTile (r c : Nat) (cell : Cell) :
    cellVal (fixTile r c cell) = cellVal cell := by
  cases cell <;> rfl

theorem list_range_map_sum (f : Nat → Nat) : ∀ n : Nat,
    ((List.range n).map f).sum = ∑ i ∈ Finset.range n, f i := by
  intro n
  induction n with
  | zero => simp
  | succ n ih =>
    rw [List.range_succ, List.map_append, List.sum_append, Finset.sum_range_succ, ih]
    simp

/-- Summing `cellVal` over the first `n` positions of a line of length at
most `n` is summing over the whole line. -/
theorem sum_range_cellVal_getD : ∀ (l : List Cell) (n : Nat), l.length ≤ n →
    (∑ i ∈ Finset.range n, cellVal (l.getD i none)) = (l.map cellVal).sum
  | [], n, _ => by
    have : ∀ i : Nat, ([] : List Cell).getD i none = none := fun i => rfl
    simp [this, cellVal]
  | x :: xs, n, h => by
    cases n with
    | zero => simp at h
    | succ m =>
      rw [Finset.sum_range_succ']
      have hx : ∀ i : Nat, ((x :: xs).getD (i + 1) none) = xs.getD i none := fun i => rfl
      simp only [hx]
      rw [sum_range_cellVal_getD xs m (by simpa using h)]
      have h0 : (x :: xs).getD 0 none = x := rfl
      rw [h0, List.map_cons, List.sum_cons, Nat.add_comm]

theorem pair_ne_of_fst {r c r' c' : Nat} (h : r ≠ r') : (r, c) ≠ (r', c') :=
  fun he => h (congrArg Prod.fst he)

theorem pair_ne_of_snd {r c r' c' : Nat} (h : c ≠ c') : (r, c) ≠ (r', c') :=
  fun he => h (congrArg Prod.snd he)

/-- Exchanging one cell exchanges its contribution to the grid total. -/
theorem gridSum_setCell {g : Grid} {n : Nat} (hd : Dims g n) (r c : Nat)
    (hr : r < n) (hc : c < n) (v : Cell) :
    gridSum (setCell g r c v) n + cellVal (cellAt g r c) = gridSum g n + cellVal v := by
  have hrg : r < g.length := by rw [hd.1]; exact hr
  have hcg : c < (g.getD r []).length := by rw [hd.2 r hr]; exact hc
  have hself : cellAt (setCell g r c v) r c = v := cellAt_setCell_self g r c v hrg hcg
  have hmemr : r ∈ Finset.range n := Finset.mem_range.2 hr
  have hmemc : c ∈ Finset.range n := Finset.mem_range.2 hc
  have key : ∀ F : Nat → Nat → Nat,
      (∑ r' ∈ Finset.range n, ∑ c' ∈ Finset.range n, F r' c') =
        (∑ r' ∈ (Finset.range n).erase r, ∑ c' ∈ Finset.range n, F r' c') +
          ((∑ c' ∈ (Finset.range n).erase c, F r c') + F r c) := by
    intro F
    rw [← Finset.sum_erase_add (Finset.range n) _ hmemr]
    congr 1
    rw [← Finset.sum_erase_add (Finset.range n) _ hmemc]
  have houter :
      (∑ r' ∈ (Finset.range n).erase r, ∑ c' ∈ Finset.range n,
        cellVal (cellAt (setCell g r c v) r' c')) =
      ∑ r' ∈ (Finset.range n).erase r, ∑ c' ∈ Finset.range n, cellVal (cellAt g r' c') := by
    refine Finset.sum_congr rfl fun r' hr' => Finset.sum_congr rfl fun c' _ => ?_
    have hne : r ≠ r' := fun he => (Finset.mem_erase.1 hr').1 he.symm
    rw [cellAt_setCell_ne g r c v r' c' (pair_ne_of_fst hne)]
  have hinner :
      (∑ c' ∈ (Finset.range n).erase c, cellVal (cellAt (setCell g r c v) r c')) =
      ∑ c' ∈ (Finset.range n).erase c, cellVal (cellAt g r c') := by
    refine Finset.sum_congr rfl fun c' hc' => ?_
    have hne : c ≠ c' := fun he => (Finset.mem_erase.1 hc').1 he.symm
    rw [cellAt_setCell_ne g r c v r c' (pair_ne_of_snd hne)]
  unfold gridSum
  rw [key (fun r' c' => cellVal (cellAt (setCell g r c v) r' c')),
      key (fun r' c' => cellVal (cellAt g r' c'))]
  rw [houter, hinner, hself]
  omega

/-- Installing a line exchanges the old cell values along the line for
the new ones in the grid total. -/
theorem gridSum_setLine {n : Nat} (cellOf : Nat → Nat × Nat) (tiles : List Cell) :
    ∀ (ks : List Nat) (g : Grid), Dims g n →
    (∀ k ∈ ks, (cellOf k).1 < n ∧ (cellOf k).2 < n) →
    List.Pairwise (fun a b => cellOf a ≠ cellOf b) ks →
    gridSum (setLine cellOf tiles ks g) n +
        (ks.map fun k => cellVal (cellAt g (cellOf k).1 (cellOf k).2)).sum =
      gridSum g n + (ks.map fun k => cellVal (tiles.getD k none)).sum := by
  intro ks
  induction ks with
  | nil => intro g _ _ _; simp [setLine_nil]
  | cons k ks ih =>
    intro g hd hb hp
    rw [setLine_cons]
    have hbk := hb k (List.mem_cons_self k ks)
    have hcell := gridSum_setCell hd (cellOf k).1 (cellOf k).2 hbk.1 hbk.2
      (fixTile (cellOf k).1 (cellOf k).2 (tiles.getD k none))
    rw [cellVal_fixTile] at hcell
    have hd1 := dims_setCell hd (cellOf k).1 (cellOf k).2
      (fixTile (cellOf k).1 (cellOf k).2 (tiles.getD k none))
    have ihh := ih
      (setCell g (cellOf k).1 (cellOf k).2 (fixTile (cellOf k).1 (cellOf k).2 (tiles.getD k none)))
      hd1 (fun k' hk' => hb k' (List.mem_cons_of_mem k hk')) hp.of_cons
    have hmap :
        (ks.map fun k' => cellVal (cellAt
          (setCell g (cellOf k).1 (cellOf k).2
            (fixTile (cellOf k).1 (cellOf k).2 (tiles.getD k none)))
          (cellOf k').1 (cellOf k').2)).sum =
        (ks.map fun k' => cellVal (cellAt g (cellOf k').1 (cellOf k').2)).sum := by
      refine congrArg List.sum (List.map_congr_left fun k' hk' => ?_)
      have hne : cellOf k ≠ cellOf k' := (List.pairwise_cons.1 hp).1 k' hk'
      have hne2 : ((cellOf k).1, (cellOf k).2) ≠ ((cellOf k').1, (cellOf k').2) := by
        simpa using hne
      rw [cellAt_setCell_ne _ _ _ _ _ _ hne2]
    rw [hmap] at ihh
    simp only [List.map_cons, List.sum_cons]
    omega

theorem gridSum_setRow {g : Grid} {n : Nat} (hd : Dims g n) (i : Nat) (hi : i < n)
    (tiles : List Cell) :
    gridSum (setRow g i tiles n) n + (∑ c ∈ Finset.range n, cellVal (cellAt g i c)) =
      gridSum g n + (∑ c ∈ Finset.range n, cellVal (tiles.getD c none)) := by
  have hpw : List.Pairwise
      (fun a b => (fun c => (i, c)) a ≠ (fun c => (i, c)) b) (List.range n) := by
    refine (List.pairwise_lt_range n).imp ?_
    intro a b hab he
    exact absurd (congrArg Prod.snd he) (Nat.ne_of_lt hab)
  have h := gridSum_setLine (fun c => (i, c)) tiles (List.range n) g hd
    (fun k hk => ⟨hi, List.mem_range.1 hk⟩) hpw
  rw [list_range_map_sum (fun k => cellVal (cellAt g i k)) n,
      list_range_map_sum (fun k => cellVal (tiles.getD k none)) n] at h
  exact h

theorem gridSum_setColumn {g : Grid} {n : Nat} (hd : Dims g n) (i : Nat) (hi : i < n)
    (tiles : List Cell) :
    gridSum (setColumn g i tiles n) n + (∑ r ∈ Finset.range n, cellVal (cellAt g r i)) =
      gridSum g n + (∑ r ∈ Finset.range n, cellVal (tiles.getD r none)) := by
  have hpw : List.Pairwise
      (fun a b => (fun r => (r, i)) a ≠ (fun r => (r, i)) b) (List.range n) := by
    refine (List.pairwise_lt_range n).imp ?_
    intro a b hab he
    exact absurd (congrArg Prod.fst he) (Nat.ne_of_lt hab)
  have h := gridSum_setLine (fun r => (r, i)) tiles (List.range n) g hd
    (fun k hk => ⟨List.mem_range.1 hk, hi⟩) hpw
  rw [list_range_map_sum (fun k => cellVal (cellAt g k i)) n,
      list_range_map_sum (fun k => cellVal (tiles.getD k none)) n] at h
  exact h

/-- The first `n` cells of row `i` sum like the extracted row. -/
theorem row_vals_eq {g : Grid} {n : Nat} (hd : Dims g n) (i : Nat) (hi : i < n) :
    (∑ c ∈ Finset.range n, cellVal (cellAt g i c)) = ((getRow g i).map cellVal).sum :=
  sum_range_cellVal_getD (getRow g i) n (Nat.le_of_eq (hd.2 i hi))

/-- The first `n` cells of column `i` sum like the extracted column. -/
theorem col_vals_eq (g : Grid) (n i : Nat) :
    (∑ r ∈ Finset.range n, cellVal (cellAt g r i)) = ((getColumn g i n).map cellVal).sum := by
  unfold getColumn
  rw [List.map_map, list_range_map_sum]
  rfl

/-- Installing the left-compacted row `i` leaves the grid total unchanged. -/
theorem gridSum_install_processRow_row {g : Grid} {n : Nat} (hd : Dims g n) (h4 : 4 ≤ n)
    (i : Nat) (hi : i < n) :
    gridSum (setRow g i (processRow n (getRow g i)).newRow n) n = gridSum g n := by
  have hrow : (getRow g i).length = n := hd.2 i hi
  have hlen := processRow_newRow_length_le n (getRow g i) h4 (Nat.le_of_eq hrow)
  have h := gridSum_setRow hd i hi (processRow n (getRow g i)).newRow
  rw [row_vals_eq hd i hi, sum_range_cellVal_getD _ n hlen, processRow_newRow_sum] at h
  omega

/-- Installing the right-compacted row `i` leaves the grid total unchanged. -/
theorem gridSum_install_compactRight_row {g : Grid} {n : Nat} (hd : Dims g n) (h4 : 4 ≤ n)
    (i : Nat) (hi : i < n) :
    gridSum (setRow g i (compactRight n (getRow g i)).newRow n) n = gridSum g n := by
  have hrow : (getRow g i).length = n := hd.2 i hi
  have hlen := compactRight_newRow_length_le n (getRow g i) h4 (Nat.le_of_eq hrow)
  have h := gridSum_setRow hd i hi (compactRight n (getRow g i)).newRow
  rw [row_vals_eq hd i hi, sum_range_cellVal_getD _ n hlen, compactRight_newRow_sum] at h
  omega

/-- Installing the up-compacted column `i` leaves the grid total unchanged. -/
theorem gridSum_install_processRow_col {g : Grid} {n : Nat} (hd : Dims g n) (h4 : 4 ≤ n)
    (i : Nat) (hi : i < n) :
    gridSum (setColumn g i (processRow n (getColumn g i n)).newRow n) n = gridSum g n := by
  have hcol : (getColumn g i n).length = n := by
    unfold getColumn
    rw [List.length_map, List.length_range]
  have hlen := processRow_newRow_length_le n (getColumn g i n) h4 (Nat.le_of_eq hcol)
  have h := gridSum_setColumn hd i hi (processRow n (getColumn g i n)).newRow
  rw [col_vals_eq g n i, sum_range_cellVal_getD _ n hlen, processRow_newRow_sum] at h
  omega

/-- Installing the down-compacted column `i` leaves the grid total unchanged. -/
theorem gridSum_install_compactRight_col {g : Grid} {n : Nat} (hd : Dims g n) (h4 : 4 ≤ n)
    (i : Nat) (hi : i < n) :
    gridSum (setColumn g i (compactRight n (getColumn g i n)).newRow n) n = gridSum g n := by
  have hcol : (getColumn g i n).length = n := by
    unfold getColumn
    rw [List.length_map, List.length_range]
  have hlen := compactRight_newRow_length_le n (getColumn g i n) h4 (Nat.le_of_eq hcol)
  have h := gridSum_setColumn hd i hi (compactRight n (getColumn g i n)).newRow
  rw [col_vals_eq g n i, sum_range_cellVal_getD _ n hlen, compactRight_newRow_sum] at h
  omega

/-- The direction loop preserves the grid total whenever installing a
compacted line does. -/
theorem foldLines_gridSum {n : Nat} {proc : List Cell → RowResult}
    {ext : Grid → Nat → List Cell} {ins : Grid → Nat → List Cell → Grid}
    (hstep : ∀ g i, Dims g n → i < n →
      gridSum (ins g i (proc (ext g i)).newRow) n = gridSum g n)
    (hdims : ∀ g i row, Dims g n → Dims (ins g i row) n) :
    ∀ (is : List Nat) (g : Grid), Dims g n → (∀ i ∈ is, i < n) →
      gridSum (foldLines proc ext ins is g).grid n = gridSum g n := by
  intro is
  induction is with
  | nil => intro g _ _; rfl
  | cons i is ih =>
    intro g hd hb
    rw [foldLines_cons]
    rcases hm : (proc (ext g i)).rowMoved with _ | _
    · simp only [hm, if_false]
      exact ih g hd fun j hj => hb j (List.mem_cons_of_mem i hj)
    · simp only [hm, if_true]
      show gridSum (foldLines proc ext ins is (ins g i (proc (ext g i)).newRow)).grid n =
        gridSum g n
      rw [ih _ (hdims g i _ hd) fun j hj => hb j (List.mem_cons_of_mem i hj)]
      exact hstep g i hd (hb i (List.mem_cons_self i is))

/-- The aggregated score of the direction loop is the summed value of
the aggregated merged tiles. -/
theorem foldLines_score_eq_merged {proc : List Cell → RowResult}
    {ext : Grid → Nat → List Cell} {ins : Grid → Nat → List Cell → Grid}
    (hproc : ∀ l, (proc l).rowScore = ((proc l).rowMerged.map Tile.value).sum) :
    ∀ (is : List Nat) (g : Grid),
      (foldLines proc ext ins is g).scoreIncrease =
        ((foldLines proc ext ins is g).mergedTiles.map Tile.value).sum := by
  intro is
  induction is with
  | nil => intro g; rfl
  | cons i is ih =>
    intro g
    rw [foldLines_cons]
    dsimp only
    rw [List.map_append, List.sum_append, ← ih, ← hproc]

theorem gridSum_moveLeft (b : Board) (h4 : 4 ≤ b.gridSize) (hd : Dims b.grid b.gridSize) :
    gridSum (moveLeft b).grid b.gridSize = gridSum b.grid b.gridSize := by
  unfold moveLeft
  refine foldLines_gridSum ?_ ?_ (List.range b.gridSize) b.grid hd
    (fun i hi => List.mem_range.1 hi)
  · intro g i hdg hi
    exact gridSum_install_processRow_row hdg h4 i hi
  · intro g i row hdg
    exact dims_setLine _ _ _ hdg

theorem gridSum_moveRight (b : Board) (h4 : 4 ≤ b.gridSize) (hd : Dims b.grid b.gridSize) :
    gridSum (moveRight b).grid b.gridSize = gridSum b.grid b.gridSize := by
  unfold moveRight
  refine foldLines_gridSum ?_ ?_ (List.range b.gridSize) b.grid hd
    (fun i hi => List.mem_range.1 hi)
  · intro g i hdg hi
    exact gridSum_install_compactRight_row hdg h4 i hi
  · intro g i row hdg
    exact dims_setLine _ _ _ hdg

theorem gridSum_moveUp (b : Board) (h4 : 4 ≤ b.gridSize) (hd : Dims b.grid b.gridSize) :
    gridSum (moveUp b).grid b.gridSize = gridSum b.grid b.gridSize := by
  unfold moveUp
  refine foldLines_gridSum ?_ ?_ (List.range b.gridSize) b.grid hd
    (fun i hi => List.mem_range.1 hi)
  · intro g i hdg hi
    exact gridSum_install_processRow_col hdg h4 i hi
  · intro g i row hdg
    exact dims_setLine _ _ _ hdg

theorem gridSum_moveDown (b : Board) (h4 : 4 ≤ b.gridSize) (hd : Dims b.grid b.gridSize) :
    gridSum (moveDown b).grid b.gridSize = gridSum b.grid b.gridSize := by
  unfold moveDown
  refine foldLines_gridSum ?_ ?_ (List.range b.gridSize) b.grid hd
    (fun i hi => List.mem_range.1 hi)
  · intro g i hdg hi
    exact gridSum_install_compactRight_col hdg h4 i hi
  · intro g i row hdg
    exact dims_setLine _ _ _ hdg

/-! ### Position-coherence infrastructure -/

/-- `cellAt` commutes with a cell-wise grid map that fixes empty cells. -/
theorem cellAt_map_map (F : Cell → Cell) (hF : F none = none) (g : Grid) (r c : Nat) :
    cellAt (g.map fun row => row.map F) r c = F (cellAt g r c) := by
  unfold cellAt
  rcases hg : g.get? r with _ | row
  · have h1 : g.getD r [] = [] := by
      show (g.get? r).getD [] = []
      rw [hg]
      rfl
    have h2 : (g.map fun row => row.map F).getD r [] = [] := by
      show ((g.map fun row => row.map F).get? r).getD [] = []
      rw [List.get?_map, hg]
      rfl
    rw [h1, h2]
    exact hF.symm
  · have h1 : g.getD r [] = row := by
      show (g.get? r).getD [] = row
      rw [hg]
      rfl
    have h2 : (g.map fun row => row.map F).getD r [] = row.map F := by
      show ((g.map fun row => row.map F).get? r).getD [] = _
      rw [List.get?_map, hg]
      rfl
    rw [h1, h2]
    rcases hc : row.get? c with _ | cell
    · have e1 : row.getD c none = none := by
        show (row.get? c).getD none = none
        rw [hc]
        rfl
      have e2 : (row.map F).getD c none = none := by
        show ((row.map F).get? c).getD none = none
        rw [List.get?_map, hc]
        rfl
      rw [e1, e2, hF]
    · have e1 : row.getD c none = cell := by
        show (row.get? c).getD none = cell
        rw [hc]
        rfl
      have e2 : (row.map F).getD c none = F cell := by
        show ((row.map F).get? c).getD none = F cell
        rw [List.get?_map, hc]
        rfl
      rw [e1, e2]

theorem posInv_clearPreviousFlags {b : Board} (hp : PosInv b.grid) :
    PosInv (clearPreviousFlags b).grid := by
  intro r c
  unfold clearPreviousFlags
  dsimp only
  rw [cellAt_map_map _ rfl]
  rcases hcell : cellAt b.grid r c with _ | t
  · exact trivial
  · have := hp r c
    rw [hcell] at this
    exact this

theorem posInv_foldl {α} (f : Grid → α → Grid) (hf : ∀ g a, PosInv g → PosInv (f g a)) :
    ∀ (l : List α) (g : Grid), PosInv g → PosInv (l.foldl f g) := by
  intro l
  induction l with
  | nil => intro g hp; exact hp
  | cons a l ih => intro g hp; exact ih (f g a) (hf g a hp)

theorem posInv_clearGrid {g g' : Grid} {n : Nat} (h : clearGrid g n = some g')
    (hp : PosInv g) : PosInv g' := by
  unfold clearGrid at h
  split at h
  · cases h
    refine posInv_foldl _ ?_ (List.range n) g hp
    intro g r hpr
    refine posInv_foldl _ ?_ (List.range n) g hpr
    intro g c hpc
    exact posInv_setCell hpc r c trivial
  · cases h

theorem posInv_addRandomTile {b : Board} (hp : PosInv b.grid) (k : Nat) (four : Bool) :
    PosInv (addRandomTile b k four).1.grid := by
  unfold addRandomTile
  rcases emptyCellsOf b.grid b.gridSize with _ | ⟨rc0, cells⟩
  · exact hp
  · exact posInv_setCell hp _ _ ⟨rfl, rfl⟩

theorem posInv_addRandomTileForDemo {b : Board} (hp : PosInv b.grid) (k : Nat) (four : Bool) :
    PosInv (addRandomTileForDemo b k four).1.grid := by
  unfold addRandomTileForDemo
  rcases emptyCellsOf b.grid b.gridSize with _ | ⟨rc0, cells⟩
  · exact hp
  · exact posInv_setCell hp _ _ ⟨rfl, rfl⟩

theorem posInv_dispatchMove {b : Board} {dir : String} {o : MoveOut}
    (h : dispatchMove b dir = some o) (hp : PosInv b.grid) : PosInv o.grid := by
  unfold dispatchMove at h
  have hins : ∀ (cellOf : Nat → Nat × Nat) (g : Grid) (i : Nat) (row : List Cell),
      PosInv g → PosInv (setLine cellOf row (List.range b.gridSize) g) :=
    fun cellOf g i row hpg => posInv_setLine cellOf row (List.range b.gridSize) g hpg
  split_ifs at h <;> cases h
  · exact posInv_foldLines (fun g i row => hins _ g i row) _ _ hp
  · exact posInv_foldLines (fun g i row => hins _ g i row) _ _ hp
  · exact posInv_foldLines (fun g i row => hins _ g i row) _ _ hp
  · exact posInv_foldLines (fun g i row => hins _ g i row) _ _ hp

theorem bumpCounters_grid (b : Board) (o : MoveOut) : (bumpCounters b o).grid = b.grid := rfl

theorem statusStep_grid (b : Board) : (statusStep b).grid = b.grid := by
  unfold statusStep
  split <;> · dsimp only
              split <;> rfl

theorem spawnStep_grid_posInv {b : Board} (hp : PosInv b.grid) (ui : Bool) (k : Nat)
    (four : Bool) : PosInv (spawnStep b ui k four).grid := by
  unfold spawnStep
  split
  · exact posInv_addRandomTile hp k four
  · exact posInv_addRandomTileForDemo hp k four

theorem posInv_move {b : Board} (hp : PosInv b.grid) (dir : String) (ui : Bool)
    (k : Nat) (four : Bool) : PosInv (move b dir ui k four).1.grid := by
  unfold move
  split
  · exact hp
  · have hp1 : PosInv (clearPreviousFlags b).grid := posInv_clearPreviousFlags hp
    rcases hdisp : dispatchMove (clearPreviousFlags b) dir with _ | o
    · simpa [hdisp] using hp1
    · have hpo : PosInv o.grid := posInv_dispatchMove hdisp hp1
      simp only [hdisp]
      split
      · rw [statusStep_grid]
        refine spawnStep_grid_posInv ?_ ui k four
        rw [bumpCounters_grid]
        exact hpo
      · exact hpo

/-! ### Frame properties of `move` when nothing moved -/

theorem dispatchMove_grid_of_not_moved {b : Board} {dir : String} {o : MoveOut}
    (h : dispatchMove b dir = some o) (hm : o.moved = false) : o.grid = b.grid := by
  unfold dispatchMove at h
  split_ifs at h <;> cases h
  · exact foldLines_grid_of_not_moved _ _ hm
  · exact foldLines_grid_of_not_moved _ _ hm
  · exact foldLines_grid_of_not_moved _ _ hm
  · exact foldLines_grid_of_not_moved _ _ hm

theorem cellAt_clearPreviousFlags (b : Board) (r c : Nat) :
    cellAt (clearPreviousFlags b).grid r c =
      (cellAt b.grid r c).map fun t => { t with isNew := false, justMerged := false } :=
  cellAt_map_map _ rfl b.grid r c

theorem mapValue_clearFlags (cell : Cell) :
    (cell.map fun t => { t with isNew := false, justMerged := false }).map Tile.value =
      cell.map Tile.value := by
  cases cell <;> rfl

/-- Full frame characterization of a rejected move: the board keeps its
counters, and its grid is exactly the flag-cleared input grid (the input
grid itself when the board was already game-over). -/
theorem move_frame_of_not_moved (b : Board) (dir : String) (ui : Bool) (k : Nat)
    (four : Bool) (h : (move b dir ui k four).2.moved = false) :
    (move b dir ui k four).1.grid =
      (if b.gameOver then b.grid else (clearPreviousFlags b).grid) ∧
    (move b dir ui k four).1.score = b.score ∧
    (move b dir ui k four).1.moves = b.moves ∧
    (move b dir ui k four).1.mergeCount = b.mergeCount := by
  by_cases hgo : b.gameOver = true
  · unfold move
    rw [if_pos hgo, if_pos hgo]
    exact ⟨rfl, rfl, rfl, rfl⟩
  · unfold move at h ⊢
    rw [if_neg hgo] at h ⊢
    rw [if_neg hgo]
    rcases hdisp : dispatchMove (clearPreviousFlags b) dir with _ | o
    · simp only [hdisp]
      exact ⟨by trivial, by trivial, by trivial, by trivial⟩
    · simp only [hdisp] at h ⊢
      by_cases hm : o.moved = true
      · rw [if_pos hm] at h
        dsimp only at h
        rw [hm] at h
        cases h
      · have hm' : o.moved = false := Bool.not_eq_true o.moved ▸ hm
        rw [if_neg hm]
        refine ⟨?_, rfl, rfl, rfl⟩
        show o.grid = (clearPreviousFlags b).grid
        exact dispatchMove_grid_of_not_moved hdisp hm'

/-! ### The loss check as a declarative predicate -/

theorem tilesEqualValue_iff (x y : Cell) :
    tilesEqualValue x y = true ↔
      ∃ t t', x = some t ∧ y = some t' ∧ t.value = t'.value := by
  cases x <;> cases y <;> simp [tilesEqualValue]

theorem hasEmptyCell_eq_false_iff (b : Board) :
    hasEmptyCell b = false ↔
      ∀ r, r < b.gridSize → ∀ c, c < b.gridSize → cellAt b.grid r c ≠ none := by
  unfold hasEmptyCell
  rw [Bool.eq_false_iff]
  simp only [ne_eq, List.any_eq_true, List.mem_range, decide_eq_true_eq, not_exists, not_and]

theorem hasAdjacentEqualPair_eq_true_iff (b : Board) :
    hasAdjacentEqualPair b = true ↔
      ∃ r c t t', r < b.gridSize ∧ c < b.gridSize ∧
        ((c + 1 < b.gridSize ∧ cellAt b.grid r c = some t ∧
            cellAt b.grid r (c + 1) = some t' ∧ t.value = t'.value) ∨
         (r + 1 < b.gridSize ∧ cellAt b.grid r c = some t ∧
            cellAt b.grid (r + 1) c = some t' ∧ t.value = t'.value)) := by
  unfold hasAdjacentEqualPair
  simp only [List.any_eq_true, List.mem_range, Bool.or_eq_true, Bool.and_eq_true,
    decide_eq_true_eq, tilesEqualValue_iff]
  constructor
  · rintro ⟨r, hr, c, hc, hor⟩
    rcases hor with ⟨hlt, t, t', h1, h2, hv⟩ | ⟨hlt, t, t', h1, h2, hv⟩
    · exact ⟨r, c, t, t', hr, hc, Or.inl ⟨by omega, h1, h2, hv⟩⟩
    · exact ⟨r, c, t, t', hr, hc, Or.inr ⟨by omega, h1, h2, hv⟩⟩
  · rintro ⟨r, c, t, t', hr, hc, hor⟩
    rcases hor with ⟨hlt, h1, h2, hv⟩ | ⟨hlt, h1, h2, hv⟩
    · exact ⟨r, hr, c, hc, Or.inl ⟨by omega, t, t', h1, h2, hv⟩⟩
    · exact ⟨r, hr, c, hc, Or.inr ⟨by omega, t, t', h1, h2, hv⟩⟩

theorem getD_replicate {α} : ∀ (m i : Nat) (x d : α),
    (List.replicate m x).getD i d = if i < m then x else d
  | 0, i, x, d => by simp
  | m + 1, 0, x, d => by simp [List.replicate]
  | m + 1, i + 1, x, d => by
    rw [List.replicate]
    show (List.replicate m x).getD i d = _
    rw [getD_replicate m i x d]
    simp [Nat.succ_lt_succ_iff]

theorem cellAt_freshGrid (m r c : Nat) : cellAt (freshGrid m) r c = none := by
  unfold freshGrid cellAt
  rw [getD_replicate]
  split
  · rw [getD_replicate]
    split <;> rfl
  · rfl

theorem posInv_freshGrid (m : Nat) : PosInv (freshGrid m) := by
  intro r c
  rw [cellAt_freshGrid]
  exact trivial

theorem posInv_initializeGame {b b' : Board} {k1 : Nat} {f1 : Bool} {k2 : Nat} {f2 : Bool}
    (hp : PosInv b.grid) (h : initializeGame b k1 f1 k2 f2 = some b') : PosInv b'.grid := by
  unfold initializeGame at h
  rcases hcg : clearGrid b.grid b.gridSize with _ | g
  · rw [hcg] at h
    cases h
  · rw [hcg] at h
    cases h
    exact posInv_addRandomTile (posInv_addRandomTile (posInv_clearGrid hcg hp) k1 f1) k2 f2

theorem posInv_resetGame {b b' : Board} {k1 : Nat} {f1 : Bool} {k2 : Nat} {f2 : Bool}
    (h : resetGame b k1 f1 k2 f2 = some b') : PosInv b'.grid :=
  posInv_initializeGame (posInv_freshGrid 4) h

/-! ### Claim theorems -/

/-- Claim C1. The spec says `processRow` returns a `newLine` of the grid
size `N ∈ {4,5,6,8}`; the code allocates `newRow = Array(4)` with a
hardcoded `4`, so on the `normal` difficulty (`N = 5`) a 5-cell line
compacts to a 4-cell line. This theorem evaluates the code at the
failing input: difficulty `normal` has grid size 5, the input line has
length 5, yet the returned `newLine` has length 4. -/
theorem C1_processRow_length_hardcoded_four :
    (getDifficultyConfig "normal").size = 5 ∧
    ([some ⟨2, 0, 0, false, false⟩, none, none, none, none] : List Cell).length = 5 ∧
    (processRow 5 [some ⟨2, 0, 0, false, false⟩, none, none, none, none]).newRow.length = 4 := by
  decide

/-- Claim C2. Merge lock: a tile produced by a merge never merges again
within the same pass. Generally, the compaction scan never writes fewer
than half the input tiles (so four tiles can never collapse into one);
concretely, `[2,2,2,2]` compacts to `[4,4,empty,empty]` with score `8`
(never `[8,…]`), and `[2,2,2]` compacts pairwise left-to-right to
`[4,2,empty,empty]` with score `4` (not `[2,4,…]`). -/
theorem C2_merge_lock :
    (∀ (ts : List Tile) (k : Nat), ts.length ≤ 2 * (compactTiles ts k).written.length) ∧
    (processRow 4 [some ⟨2, 0, 0, false, false⟩, some ⟨2, 0, 1, false, false⟩,
        some ⟨2, 0, 2, false, false⟩, some ⟨2, 0, 3, false, false⟩]).newRow =
      [some ⟨4, 0, 0, false, true⟩, some ⟨4, 0, 1, false, true⟩, none, none] ∧
    (processRow 4 [some ⟨2, 0, 0, false, false⟩, some ⟨2, 0, 1, false, false⟩,
        some ⟨2, 0, 2, false, false⟩, some ⟨2, 0, 3, false, false⟩]).rowScore = 8 ∧
    (processRow 4 [some ⟨2, 0, 0, false, false⟩, some ⟨2, 0, 1, false, false⟩,
        some ⟨2, 0, 2, false, false⟩, none]).newRow =
      [some ⟨4, 0, 0, false, true⟩, some ⟨2, 0, 1, false, false⟩, none, none] ∧
    (processRow 4 [some ⟨2, 0, 0, false, false⟩, some ⟨2, 0, 1, false, false⟩,
        some ⟨2, 0, 2, false, false⟩, none]).rowScore = 4 :=
  ⟨compact_written_length_ge, by decide, by decide, by decide, by decide⟩

/-- Claim C3. Directional symmetry: compacting a line left
(`processRow`) and compacting its reversed line right (`compactRight`,
the per-line computation of `moveRight`/`moveDown`: reverse, shared
`processRow`, reverse back) produce mirror-image lines with identical
score and identical merged-tile report. -/
theorem C3_mirror_symmetry (n : Nat) (line : List Cell) :
    (compactRight n line.reverse).newRow = ((processRow n line).newRow).reverse ∧
    (compactRight n line.reverse).rowScore = (processRow n line).rowScore ∧
    (compactRight n line.reverse).rowMerged = (processRow n line).rowMerged := by
  unfold compactRight
  rw [List.reverse_reverse]
  exact ⟨rfl, rfl, rfl⟩

/-- Claim C4, corrected. If `move` reports `moved = false` the grid's
occupancy, values and positions are untouched (no spawn, and `score`,
`moves`, `mergeCount` keep their values) — but the grid is *not*
bit-for-bit identical in general: unless the board was already game
over, `clearPreviousFlags` has already reset every tile's
`isNew`/`justMerged` flag before the direction dispatch. -/
theorem C4_rejected_move_frame (b : Board) (dir : String) (ui : Bool) (k : Nat)
    (four : Bool) (h : (move b dir ui k four).2.moved = false) :
    (move b dir ui k four).1.grid =
      (if b.gameOver then b.grid else (clearPreviousFlags b).grid) ∧
    (∀ r c, (cellAt (move b dir ui k four).1.grid r c).map Tile.value =
      (cellAt b.grid r c).map Tile.value) ∧
    (move b dir ui k four).1.score = b.score ∧
    (move b dir ui k four).1.moves = b.moves ∧
    (move b dir ui k four).1.mergeCount = b.mergeCount := by
  obtain ⟨h1, h2, h3, h4⟩ := move_frame_of_not_moved b dir ui k four h
  refine ⟨h1, ?_, h2, h3, h4⟩
  intro r c
  rw [h1]
  by_cases hgo : b.gameOver = true
  · rw [if_pos hgo]
  · rw [if_neg hgo, cellAt_clearPreviousFlags, mapValue_clearFlags]

/-- Claim C4, counterexample to the claim as stated: on a board holding
a freshly spawned tile, a left move that slides nothing returns
`moved = false`, and yet the resulting grid differs bit-for-bit from the
prior grid — the tile's `isNew` flag has been cleared. -/
theorem C4_flags_cleared_counterexample :
    (move bOneNewTile "left" true 0 false).2.moved = false ∧
    (move bOneNewTile "left" true 0 false).1.grid ≠ bOneNewTile.grid := by
  decide

/-- Witness for `C4_rejected_move_frame` at a concrete rejected move. -/
theorem C4_rejected_move_frame_witness :
    (move bOneNewTile "left" true 0 false).1.grid =
      (if bOneNewTile.gameOver then bOneNewTile.grid
        else (clearPreviousFlags bOneNewTile).grid) ∧
    (move bOneNewTile "left" true 0 false).1.score = bOneNewTile.score :=
  ⟨(C4_rejected_move_frame bOneNewTile "left" true 0 false (by decide)).1,
   (C4_rejected_move_frame bOneNewTile "left" true 0 false (by decide)).2.2.1⟩

/-- Claim C5, counterexample to the claim as stated: moving a board with
top row `2, 2` left merges into one `4`; before the spawn the tile total
is unchanged (`4 = 4`) while `scoreIncrease = 4`, so
`sum(after) = sum(before) + scoreDelta` fails (`4 ≠ 4 + 4`). -/
theorem C5_conservation_counterexample :
    gridSum (moveLeft bTwoTwos).grid 4 = 4 ∧
    (moveLeft bTwoTwos).scoreIncrease = 4 ∧
    gridSum bTwoTwos.grid 4 = 4 ∧
    gridSum (moveLeft bTwoTwos).grid 4 ≠
      gridSum bTwoTwos.grid 4 + (moveLeft bTwoTwos).scoreIncrease := by
  decide

/-- Claim C5, corrected. For any move, before the spawn, the sum of the
tile values on the resulting grid equals the sum on the prior grid (a
merge of two `v`-tiles removes `2v` and writes `2v` back, net zero);
the returned `scoreIncrease` is not added to the tile total — it equals
the summed value of the merged tiles created by the move. -/
theorem C5_value_conservation (b : Board) (h4 : 4 ≤ b.gridSize)
    (hd : Dims b.grid b.gridSize) :
    gridSum (moveLeft b).grid b.gridSize = gridSum b.grid b.gridSize ∧
    gridSum (moveRight b).grid b.gridSize = gridSum b.grid b.gridSize ∧
    gridSum (moveUp b).grid b.gridSize = gridSum b.grid b.gridSize ∧
    gridSum (moveDown b).grid b.gridSize = gridSum b.grid b.gridSize ∧
    (moveLeft b).scoreIncrease = ((moveLeft b).mergedTiles.map Tile.value).sum ∧
    (moveRight b).scoreIncrease = ((moveRight b).mergedTiles.map Tile.value).sum ∧
    (moveUp b).scoreIncrease = ((moveUp b).mergedTiles.map Tile.value).sum ∧
    (moveDown b).scoreIncrease = ((moveDown b).mergedTiles.map Tile.value).sum := by
  refine ⟨gridSum_moveLeft b h4 hd, gridSum_moveRight b h4 hd, gridSum_moveUp b h4 hd,
    gridSum_moveDown b h4 hd, ?_, ?_, ?_, ?_⟩
  · exact foldLines_score_eq_merged (processRow_score_eq_merged b.gridSize) _ _
  · exact foldLines_score_eq_merged (compactRight_score_eq_merged b.gridSize) _ _
  · exact foldLines_score_eq_merged (processRow_score_eq_merged b.gridSize) _ _
  · exact foldLines_score_eq_merged (compactRight_score_eq_merged b.gridSize) _ _

/-- Witness for `C5_value_conservation` at a concrete merging move. -/
theorem C5_value_conservation_witness :
    gridSum (moveLeft bTwoTwos).grid bTwoTwos.gridSize =
      gridSum bTwoTwos.grid bTwoTwos.gridSize ∧
    gridSum (moveUp bTwoTwos).grid bTwoTwos.gridSize =
      gridSum bTwoTwos.grid bTwoTwos.gridSize :=
  ⟨(C5_value_conservation bTwoTwos (by decide) ⟨by decide, by decide⟩).1,
   (C5_value_conservation bTwoTwos (by decide) ⟨by decide, by decide⟩).2.2.1⟩

/-- Claim C6. The loss check `checkGameOver` returns `true` iff every
cell is occupied and no two horizontally- or vertically-adjacent cells
hold tiles of equal value; only raw values are compared (the `SpecLost`
predicate mentions no `justMerged` flag). -/
theorem C6_checkGameOver_iff_specLost (b : Board) :
    checkGameOver b = true ↔ SpecLost b := by
  unfold checkGameOver SpecLost
  constructor
  · intro h
    by_cases he : hasEmptyCell b = true
    · rw [if_pos he] at h
      cases h
    · rw [if_neg he] at h
      by_cases ha : hasAdjacentEqualPair b = true
      · rw [if_pos ha] at h
        cases h
      · have he' : hasEmptyCell b = false := by
          rcases Bool.eq_false_or_eq_true (hasEmptyCell b) with h0 | h0
          · exact absurd h0 he
          · exact h0
        refine ⟨(hasEmptyCell_eq_false_iff b).1 he', ?_⟩
        intro hex
        exact ha ((hasAdjacentEqualPair_eq_true_iff b).2 hex)
  · rintro ⟨h1, h2⟩
    have he : hasEmptyCell b = false := (hasEmptyCell_eq_false_iff b).2 h1
    have ha : ¬ hasAdjacentEqualPair b = true :=
      fun hcontra => h2 ((hasAdjacentEqualPair_eq_true_iff b).1 hcontra)
    rw [if_neg (by rw [he]; exact Bool.false_ne_true), if_neg ha]

/-- Claim C7. Calling `move` on a board whose `gameOver` flag is set is
a complete no-op: it returns `moved = false`, zero score and no merged
tiles, and the board — every field — is returned unchanged. Hence a
board in the lost state stays lost under `move`; only a reset builds a
fresh board. -/
theorem C7_lost_board_noop (b : Board) (dir : String) (ui : Bool) (k : Nat)
    (four : Bool) (h : b.gameOver = true) :
    move b dir ui k four = (b, noMove) := by
  unfold move
  rw [if_pos h]

/-- Witness for `C7_lost_board_noop` on a concrete lost board. -/
theorem C7_lost_board_noop_witness :
    move bLost "left" true 0 false = (bLost, noMove) :=
  C7_lost_board_noop bLost "left" true 0 false rfl

/-- Claim C8, counterexample to the claim as stated: the claim says a
malformed direction raises an exception; the code's `switch` `default`
branch instead returns the normal no-move result object. At the
concrete direction string `"diagonal"`, `move` returns normally (with
the previous turn's flags already cleared). -/
theorem C8_invalid_direction_counterexample :
    move bEmptyEasy "diagonal" true 0 false = (clearPreviousFlags bEmptyEasy, noMove) := by
  decide

/-- Claim C8, corrected. For every direction outside the closed set
`{left, right, up, down}` (on a board not already game over), `move`
returns normally — silently — with `moved = false`, zero score and no
merged tiles; the only state change is the flag clearing that already
happened before the dispatch. No exception is raised (the model is a
total function). -/
theorem C8_invalid_direction_silent (b : Board) (dir : String) (ui : Bool) (k : Nat)
    (four : Bool) (hgo : b.gameOver = false) (h1 : dir ≠ "left") (h2 : dir ≠ "right")
    (h3 : dir ≠ "up") (h4 : dir ≠ "down") :
    move b dir ui k four = (clearPreviousFlags b, noMove) := by
  unfold move
  rw [if_neg (by rw [hgo]; exact Bool.false_ne_true)]
  have hdisp : dispatchMove (clearPreviousFlags b) dir = none := by
    unfold dispatchMove
    rw [if_neg h1, if_neg h2, if_neg h3, if_neg h4]
  simp only [hdisp]

/-- Witness for `C8_invalid_direction_silent` at a concrete direction. -/
theorem C8_invalid_direction_silent_witness :
    move bOneNewTile "diag" true 0 false = (clearPreviousFlags bOneNewTile, noMove) :=
  C8_invalid_direction_silent bOneNewTile "diag" true 0 false rfl (by decide) (by decide)
    (by decide) (by decide)

/-- Claim C9. The spec says `reset` recreates a fresh `N × N` board for
the configured grid size; `resetGame` instead rebuilds the grid as a
hardcoded `4 × 4` array, so on the `normal` difficulty (grid size 5)
the subsequent `clearGrid` loop indexes the missing row 4 and throws
(`none` in the model) instead of producing a fresh 5×5 board with two
spawned tiles. The constructor itself (`newBoard "normal"`) succeeds;
resetting that same board fails. -/
theorem C9_reset_hardcodes_grid4 :
    (newBoard "normal" 0 0 false 0 false).isSome = true ∧
    (newBoard "normal" 0 0 false 0 false).bind
      (fun b => resetGame b 0 false 0 false) = none := by
  decide

/-- Claim C10. Position coherence is an invariant of every engine
operation: after `addRandomTile`, `move` in any direction (valid or
not), `initializeGame` and `resetGame`, every tile on the grid stores
exactly the row and column of the cell holding it (each cell holds at
most one tile by representation). -/
theorem C10_position_invariant :
    (∀ (b : Board) (k : Nat) (four : Bool), PosInv b.grid →
      PosInv (addRandomTile b k four).1.grid) ∧
    (∀ (b : Board) (dir : String) (ui : Bool) (k : Nat) (four : Bool), PosInv b.grid →
      PosInv (move b dir ui k four).1.grid) ∧
    (∀ (b b' : Board) (k1 : Nat) (f1 : Bool) (k2 : Nat) (f2 : Bool), PosInv b.grid →
      initializeGame b k1 f1 k2 f2 = some b' → PosInv b'.grid) ∧
    (∀ (b b' : Board) (k1 : Nat) (f1 : Bool) (k2 : Nat) (f2 : Bool),
      resetGame b k1 f1 k2 f2 = some b' → PosInv b'.grid) :=
  ⟨fun _ k four hp => posInv_addRandomTile hp k four,
   fun _ dir ui k four hp => posInv_move hp dir ui k four,
   fun _ _ _ _ _ _ hp h => posInv_initializeGame hp h,
   fun _ _ _ _ _ _ h => posInv_resetGame h⟩

/-- Witness for `C10_position_invariant`: the invariant, instantiated at
concrete cells after a concrete spawn and a concrete merging move. -/
theorem C10_position_invariant_witness :
    tileAtOk 0 0 (cellAt (addRandomTile bEmptyEasy 0 false).1.grid 0 0) ∧
    tileAtOk 0 1 (cellAt (move bTwoTwos "left" true 0 false).1.grid 0 1) :=
  ⟨C10_position_invariant.1 bEmptyEasy 0 false (posInv_freshGrid 4) 0 0,
   C10_position_invariant.2.1 bTwoTwos "left" true 0 false
     (posInv_setCell (posInv_setCell (posInv_freshGrid 4) 0 0 (by exact ⟨rfl, rfl⟩)) 0 1
       (by exact ⟨rfl, rfl⟩))
     0 1⟩
